import Mathlib

/-!
Verification of the cramjam codec-wrapper sources (src/deflate.rs, src/gzip.rs,
src/zstd.rs) against their natural-language specification.

Modelling conventions:
* A byte sequence is a `List Nat`.  A Rust `Write` sink is threaded explicitly:
  each operation takes the writer's current contents and returns the new
  contents together with the operation's `Result`.
* The external codec libraries (flate2, zstd) are out of the repository's
  scope; they appear as abstract structures (`DeflateLib`, `GzipLib`,
  `ZstdLib`) whose field types mirror exactly the Rust APIs the sources call:
  `flate2::Compression::new` and the flate2 encoder constructors are total
  (they return no `Result`), so flate2 encoding is a total function of the
  level and the input; decoders can fail mid-stream, so a decode returns the
  bytes produced before a possible error (`Bytes × Option IoErr`), matching
  the streaming behaviour of `std::io::copy`.
* `std::io::copy` over an in-memory reader/writer copies all produced bytes in
  order and returns their count; on a read error the bytes already produced
  have been written.
* Errors are opaque I/O error codes (`IoErr := Nat`); the sources never
  inspect an error, they only propagate it.
-/

/-- A byte sequence (Rust `&[u8]` / `Vec<u8>`); byte values are irrelevant to
the wrapper logic, so plain naturals are used. -/
abbrev Bytes := List Nat

/-- An opaque I/O error (`std::io::Error`): the sources only propagate these,
never inspect them, so an abstract code suffices. -/
abbrev IoErr := Nat

/-- Abstract interface of the flate2 deflate codec as used by
`src/deflate.rs`: `DeflateEncoder::new(input, Compression::new(level))` is
total for every `u32` level (neither constructor returns a `Result`), reading
the encoder to the end yields the compressed bytes; `DeflateDecoder` streamed
through `std::io::copy` yields the decompressed bytes, possibly followed by a
mid-stream error. -/
structure DeflateLib where
  encode : Nat → Bytes → Bytes
  decode : Bytes → Bytes × Option IoErr

/-- Abstract interface of the flate2 gzip codec as used by `src/gzip.rs`:
`GzEncoder::new(input, Compression::new(level))` is total for every `u32`
level; `MultiGzDecoder::read_to_end` yields the concatenated decompressed
output of all gzip members, or the bytes read so far followed by an error. -/
structure GzipLib where
  encode : Nat → Bytes → Bytes
  multiDecode : Bytes → Bytes × Option IoErr

/-- Abstract interface of the zstd codec as used by `src/zstd.rs`:
`zstd::stream::read::Encoder::new(input, level)` returns a `Result`, so
construction can fail before any byte is copied; once constructed, reading the
encoder yields the compressed bytes.  `Decoder` streamed through
`std::io::copy` yields the decompressed bytes, possibly followed by an
error. -/
structure ZstdLib where
  encoderNew : Int → Except IoErr Unit
  encode : Int → Bytes → Bytes
  decode : Bytes → Bytes × Option IoErr

/-- `DEFAULT_COMPRESSION_LEVEL` of src/deflate.rs (line 10). -/
def Deflate.DEFAULT_COMPRESSION_LEVEL : Nat := 6

/-- `DEFAULT_COMPRESSION_LEVEL` of src/zstd.rs (line 10). -/
def Zstd.DEFAULT_COMPRESSION_LEVEL : Int := 0

/-- `internal::decompress` of src/deflate.rs (lines 105-109): build a
`DeflateDecoder` over the input and `std::io::copy` it into the output,
returning the copied byte count. -/
def Deflate.decompress (dl : DeflateLib) (input output : Bytes) :
    Bytes × Except IoErr Nat :=
  match dl.decode input with
  | (d, some e) => (output ++ d, Except.error e)
  | (d, none) => (output ++ d, Except.ok d.length)

/-- `internal::compress` of src/deflate.rs (lines 113-119): default the level
to 6, build a `DeflateEncoder` over the input (total for any level) and
`std::io::copy` it into the output, returning the copied byte count. -/
def Deflate.compress (dl : DeflateLib) (input output : Bytes)
    (level : Option Nat) : Bytes × Except IoErr Nat :=
  let lvl := level.getD Deflate.DEFAULT_COMPRESSION_LEVEL
  let c := dl.encode lvl input
  (output ++ c, Except.ok c.length)

/-- `internal::decompress` of src/gzip.rs (lines 63-69): a `MultiGzDecoder` is
fully drained into a local vector first (`read_to_end`); only on success is
that vector copied to the output writer, and the `read_to_end` count is
returned.  On error the writer receives nothing. -/
def Gzip.decompress (gl : GzipLib) (input output : Bytes) :
    Bytes × Except IoErr Nat :=
  match gl.multiDecode input with
  | (_, some e) => (output, Except.error e)
  | (d, none) => (output ++ d, Except.ok d.length)

/-- `internal::compress` of src/gzip.rs (lines 72-77): default the level to 6,
build a `GzEncoder` over the input (total for any level) and `std::io::copy`
it into the output, returning the copied byte count. -/
def Gzip.compress (gl : GzipLib) (input output : Bytes)
    (level : Option Nat) : Bytes × Except IoErr Nat :=
  let lvl := level.getD 6
  let c := gl.encode lvl input
  (output ++ c, Except.ok c.length)

/-- `internal::decompress` of src/zstd.rs (lines 100-104): build a
`Decoder` over the input (header read may fail, modelled as a decode error
producing no bytes) and `std::io::copy` it into the output. -/
def Zstd.decompress (zl : ZstdLib) (input output : Bytes) :
    Bytes × Except IoErr Nat :=
  match zl.decode input with
  | (d, some e) => (output ++ d, Except.error e)
  | (d, none) => (output ++ d, Except.ok d.length)

/-- `internal::compress` of src/zstd.rs (lines 108-113): default the level to
0 (zstd's own default), construct `Encoder::new(input, level)` whose failure
propagates before any copy, then `std::io::copy` into the output. -/
def Zstd.compress (zl : ZstdLib) (input output : Bytes)
    (level : Option Int) : Bytes × Except IoErr Nat :=
  let lvl := level.getD Zstd.DEFAULT_COMPRESSION_LEVEL
  match zl.encoderNew lvl with
  | Except.error e => (output, Except.error e)
  | Except.ok _ =>
    let c := zl.encode lvl input
    (output ++ c, Except.ok c.length)

/-- A transparent instantiation of the deflate interface (encode is the
identity, decode never fails), used to exhibit concrete behaviours of the
wrapper logic; the wrapper treats the codec as opaque, so any instance is as
good as any other for evaluating the wrapper itself. -/
def idDeflateLib : DeflateLib where
  encode := fun _ b => b
  decode := fun b => (b, none)

/-- A transparent instantiation of the gzip interface; concatenation of
members is the identity on concatenated payloads, matching the
`MultiGzDecoder` contract. -/
def idGzipLib : GzipLib where
  encode := fun _ b => b
  multiDecode := fun b => (b, none)

/-- A transparent instantiation of the zstd interface accepting every
level. -/
def idZstdLib : ZstdLib where
  encoderNew := fun _ => Except.ok ()
  encode := fun _ b => b
  decode := fun b => (b, none)

/-- A gzip instantiation whose decoder always fails, to exhibit the error
path of `internal::decompress`. -/
def failGzipLib : GzipLib where
  encode := fun _ b => b
  multiDecode := fun _ => ([7], some 5)

/-- A zstd instantiation whose encoder construction always fails, to exhibit
the fail-before-copy path of `internal::compress`. -/
def failZstdLib : ZstdLib where
  encoderNew := fun _ => Except.error 3
  encode := fun _ b => b
  decode := fun b => (b, none)

/-- Modelled from the spec: the incremental encoder of a codec library
(flate2 `write::DeflateEncoder` / zstd `stream::write::Encoder`), which is an
external collaborator — per the spec it accepts writes (returning the count of
bytes consumed and emitting zero or more compressed bytes into its sink),
supports a non-destructive `flush` that forces all buffered-but-not-yet-output
compressed data out, and a destructive finalization that emits the remaining
data plus the trailer.  The core state is abstract (`σ`); the sink is kept in
the session state below. -/
structure Enc (σ : Type) where
  write : σ → Bytes → σ × Bytes × Nat
  flushE : σ → σ × Bytes
  finE : σ → Bytes

/-- Compressor session state from src/deflate.rs line 62 / src/zstd.rs line
62: `inner: Option<Encoder<Cursor<Vec<u8>>>>` — an optional pair of the
encoder's core state and its in-memory sink (`Cursor<Vec<u8>>`, starting
empty).  `none` is the Finished state. -/
structure Compressor (σ : Type) where
  inner : Option (σ × Bytes)
deriving DecidableEq

/-- Modelled from the spec: the error kinds an operation on a Finished
session raises — `crate::io::stream_compress`/`stream_flush`/`stream_finish`
are repository code not under src/; per the spec every operation on a
Finished session "fails with a compressor already finished error". -/
inductive StreamErr
  | alreadyFinished
deriving DecidableEq

/-- Modelled from the spec: `crate::io::stream_compress` (repository code not
under src/), called by `Compressor::compress` (src/deflate.rs lines 77-79,
src/zstd.rs lines 75-77).  Valid only in Active: feeds bytes through the
encoder into the sink and returns the count consumed; in Finished it fails
with an already-finished error. -/
def streamCompress {σ : Type} (e : Enc σ) (c : Compressor σ) (input : Bytes) :
    Compressor σ × Except StreamErr Nat :=
  match c.inner with
  | none => (c, Except.error StreamErr.alreadyFinished)
  | some (s, sink) =>
    let r := e.write s input
    (⟨some (r.1, sink ++ r.2.1)⟩, Except.ok r.2.2)

/-- Modelled from the spec: `crate::io::stream_flush` (repository code not
under src/), called by `Compressor::flush` (src/deflate.rs lines 82-84,
src/zstd.rs lines 80-82).  Valid only in Active: forces the encoder to emit
its buffered output into the sink, drains the sink into a fresh buffer
returned to the caller, and leaves the session Active with an empty sink. -/
def streamFlush {σ : Type} (e : Enc σ) (c : Compressor σ) :
    Compressor σ × Except StreamErr Bytes :=
  match c.inner with
  | none => (c, Except.error StreamErr.alreadyFinished)
  | some (s, sink) =>
    let r := e.flushE s
    (⟨some (r.1, [])⟩, Except.ok (sink ++ r.2))

/-- Modelled from the spec: `crate::io::stream_finish` (repository code not
under src/), called by `Compressor::finish` (src/deflate.rs lines 88-90,
src/zstd.rs lines 86-88).  Valid only in Active: consumes the encoder
(writing the codec trailer), returns the sink's entire contents, and
transitions the session irreversibly to Finished (`inner = none`). -/
def streamFinish {σ : Type} (e : Enc σ) (c : Compressor σ) :
    Compressor σ × Except StreamErr Bytes :=
  match c.inner with
  | none => (c, Except.error StreamErr.alreadyFinished)
  | some (s, sink) =>
    (⟨none⟩, Except.ok (sink ++ e.finE s))

/-- `Compressor::__init__` of src/deflate.rs (lines 69-74): resolve the level
with default 6 and construct the encoder over a fresh empty sink; the session
starts Active.  The encoder constructor `mk` abstracts
`flate2::write::DeflateEncoder::new` (total). -/
def Deflate.mkCompressor {σ : Type} (mk : Nat → σ) (level : Option Nat) :
    Compressor σ :=
  ⟨some (mk (level.getD Deflate.DEFAULT_COMPRESSION_LEVEL), [])⟩

/-- `Compressor::__init__` of src/zstd.rs (lines 69-72): resolve the level
with default 0 and construct the encoder over a fresh empty sink; the
constructor `mk` abstracts `zstd::stream::write::Encoder::new`, whose failure
propagates (`?`). -/
def Zstd.mkCompressor {σ : Type} (mk : Int → Except IoErr σ) (level : Option Int) :
    Except IoErr (Compressor σ) :=
  (mk (level.getD Zstd.DEFAULT_COMPRESSION_LEVEL)).map fun s => ⟨some (s, [])⟩

/-- One step of a streaming-session script: either feed bytes or flush. -/
inductive SOp
  | feed (b : Bytes)
  | flush
deriving DecidableEq

/-- Run a script of feed/flush operations on a session, concatenating the
buffers returned by the flushes (feeds return counts, which the caller of a
script discards). -/
def runOps {σ : Type} (e : Enc σ) (c : Compressor σ) : List SOp → Compressor σ × Bytes
  | [] => (c, [])
  | SOp.feed b :: ops =>
    let r := streamCompress e c b
    runOps e r.1 ops
  | SOp.flush :: ops =>
    let r := streamFlush e c
    let buf := match r.2 with
      | Except.ok buf => buf
      | Except.error _ => []
    let rest := runOps e r.1 ops
    (rest.1, buf ++ rest.2)

/-- The raw emission stream of the encoder alone under a script: final core
state and the concatenation, in order, of every byte the encoder emits. -/
def emits {σ : Type} (e : Enc σ) : σ → List SOp → σ × Bytes
  | s, [] => (s, [])
  | s, SOp.feed b :: ops =>
    let r := e.write s b
    let rest := emits e r.1 ops
    (rest.1, r.2.1 ++ rest.2)
  | s, SOp.flush :: ops =>
    let r := e.flushE s
    let rest := emits e r.1 ops
    (rest.1, r.2 ++ rest.2)

/-- Total compressed stream the encoder produces for a script followed by
finalization. -/
def produce {σ : Type} (e : Enc σ) (s : σ) (ops : List SOp) : Bytes :=
  (emits e s ops).2 ++ e.finE (emits e s ops).1

/-- Total byte stream a session hands to its caller: the concatenation of all
flush buffers over the script, followed by the finish buffer. -/
def sessionTotal {σ : Type} (e : Enc σ) (s : σ) (ops : List SOp) : Bytes :=
  let r := runOps e ⟨some (s, [])⟩ ops
  match (streamFinish e r.1).2 with
  | Except.ok buf => r.2 ++ buf
  | Except.error _ => r.2

/-- Remove the flush operations from a script, keeping the feeds. -/
def stripFlush : List SOp → List SOp
  | [] => []
  | SOp.feed b :: ops => SOp.feed b :: stripFlush ops
  | SOp.flush :: ops => stripFlush ops

example : Deflate.compress idDeflateLib [1, 2, 3] [] none = ([1, 2, 3], Except.ok 3) := rfl

example : Deflate.decompress idDeflateLib [1, 2, 3] [] = ([1, 2, 3], Except.ok 3) := rfl

example : Zstd.compress failZstdLib [1, 2] [9] (some 100) = ([9], Except.error 3) := rfl

/-- Claim C5: an unset (`None`) level behaves identically to the codec's
documented default supplied explicitly — 6 for deflate, 6 for gzip, 0 for
zstd — in the one-shot `internal::compress` paths and in the streaming
`Compressor` constructors that exist (deflate and zstd; gzip exposes no
streaming compressor in these sources). -/
theorem claim_C5_default_levels :
    (∀ (dl : DeflateLib) (i o : Bytes),
      Deflate.compress dl i o none = Deflate.compress dl i o (some 6)) ∧
    (∀ (gl : GzipLib) (i o : Bytes),
      Gzip.compress gl i o none = Gzip.compress gl i o (some 6)) ∧
    (∀ (zl : ZstdLib) (i o : Bytes),
      Zstd.compress zl i o none = Zstd.compress zl i o (some 0)) ∧
    (∀ (σ : Type) (mk : Nat → σ),
      Deflate.mkCompressor mk none = Deflate.mkCompressor mk (some 6)) ∧
    (∀ (σ : Type) (mk : Int → Except IoErr σ),
      Zstd.mkCompressor mk none = Zstd.mkCompressor mk (some 0)) :=
  ⟨fun _ _ _ => rfl, fun _ _ _ => rfl, fun _ _ _ => rfl,
   fun _ _ => rfl, fun _ _ => rfl⟩

/-- Claim C10: one-shot compression is deterministic — equal inputs and equal
or equally-defaulted levels produce identical writer contents and identical
returned counts, for each codec. -/
theorem claim_C10_deterministic
    (dl : DeflateLib) (gl : GzipLib) (zl : ZstdLib)
    (i1 i2 : Bytes) (ld1 ld2 lg1 lg2 : Option Nat) (lz1 lz2 : Option Int)
    (hi : i1 = i2) (hd : ld1.getD 6 = ld2.getD 6) (hg : lg1.getD 6 = lg2.getD 6)
    (hz : lz1.getD 0 = lz2.getD 0) :
    Deflate.compress dl i1 [] ld1 = Deflate.compress dl i2 [] ld2 ∧
    Gzip.compress gl i1 [] lg1 = Gzip.compress gl i2 [] lg2 ∧
    Zstd.compress zl i1 [] lz1 = Zstd.compress zl i2 [] lz2 := by
  subst hi
  refine ⟨?_, ?_, ?_⟩
  · simp only [Deflate.compress, Deflate.DEFAULT_COMPRESSION_LEVEL, hd]
  · simp only [Gzip.compress, hg]
  · simp only [Zstd.compress, Zstd.DEFAULT_COMPRESSION_LEVEL, hz]

/-- Witness for C10 at concrete inputs: `None` and the explicit default level
give identical results for each codec. -/
theorem claim_C10_witness :
    Deflate.compress idDeflateLib [1, 2] [] none
        = Deflate.compress idDeflateLib [1, 2] [] (some 6) ∧
    Gzip.compress idGzipLib [1, 2] [] none
        = Gzip.compress idGzipLib [1, 2] [] (some 6) ∧
    Zstd.compress idZstdLib [1, 2] [] none
        = Zstd.compress idZstdLib [1, 2] [] (some 0) :=
  claim_C10_deterministic idDeflateLib idGzipLib idZstdLib
    [1, 2] [1, 2] none (some 6) none (some 6) none (some 0) rfl rfl rfl rfl

/-- Claim C8: whenever `internal::decompress` returns `Ok(n)`, exactly `n`
bytes were appended to the output writer, for each codec. -/
theorem claim_C8_count_is_bytes_written
    (dl : DeflateLib) (gl : GzipLib) (zl : ZstdLib) (i o : Bytes) :
    (∀ n, (Deflate.decompress dl i o).2 = Except.ok n →
      (Deflate.decompress dl i o).1.length = o.length + n) ∧
    (∀ n, (Gzip.decompress gl i o).2 = Except.ok n →
      (Gzip.decompress gl i o).1.length = o.length + n) ∧
    (∀ n, (Zstd.decompress zl i o).2 = Except.ok n →
      (Zstd.decompress zl i o).1.length = o.length + n) := by
  refine ⟨?_, ?_, ?_⟩
  · intro n hn
    rcases h : dl.decode i with ⟨d, oe⟩
    cases oe <;>
      simp_all [Deflate.decompress, h]
  · intro n hn
    rcases h : gl.multiDecode i with ⟨d, oe⟩
    cases oe <;>
      simp_all [Gzip.decompress, h]
  · intro n hn
    rcases h : zl.decode i with ⟨d, oe⟩
    cases oe <;>
      simp_all [Zstd.decompress, h]

/-- Witness for C8: on concrete successful decompressions the writer grows by
exactly the returned count. -/
theorem claim_C8_witness :
    (Deflate.decompress idDeflateLib [5, 6] []).1.length = ([] : Bytes).length + 2 ∧
    (Gzip.decompress idGzipLib [5, 6] []).1.length = ([] : Bytes).length + 2 ∧
    (Zstd.decompress idZstdLib [5, 6] []).1.length = ([] : Bytes).length + 2 :=
  ⟨(claim_C8_count_is_bytes_written idDeflateLib idGzipLib idZstdLib [5, 6] []).1 2 rfl,
   (claim_C8_count_is_bytes_written idDeflateLib idGzipLib idZstdLib [5, 6] []).2.1 2 rfl,
   (claim_C8_count_is_bytes_written idDeflateLib idGzipLib idZstdLib [5, 6] []).2.2 2 rfl⟩

/-- Claim C9: gzip decompression is atomic with respect to its output — the
stream is fully decoded into a local vector before any byte reaches the
writer, so on a decode failure the writer is exactly as it was (zero bytes
written), whatever partial bytes the decoder produced. -/
theorem claim_C9_gzip_error_atomic
    (gl : GzipLib) (i o : Bytes) (e : IoErr)
    (h : (gl.multiDecode i).2 = some e) :
    Gzip.decompress gl i o = (o, Except.error e) := by
  rcases hd : gl.multiDecode i with ⟨d, oe⟩
  rw [hd] at h
  simp only at h
  subst h
  simp [Gzip.decompress, hd]

/-- Witness for C9: a failing gzip decoder (which even produced partial
bytes internally) leaves the writer untouched. -/
theorem claim_C9_witness :
    (failGzipLib.multiDecode [1]).2 = some 5 ∧
    Gzip.decompress failGzipLib [1] [9, 9] = ([9, 9], Except.error 5) :=
  ⟨rfl, claim_C9_gzip_error_atomic failGzipLib [1] [9, 9] 5 rfl⟩

/-- Counterexample to C4 as stated: deflate compression with level 100 — far
outside deflate's documented 0-9 range — does not fail with a validation
error before I/O; `internal::compress` performs no level check at all
(`flate2::Compression::new` and `DeflateEncoder::new` are total) and the call
succeeds. -/
theorem claim_C4_counterexample :
    (Deflate.compress idDeflateLib [1, 2, 3] [] (some 100)).2 = Except.ok 3 := rfl

/-- Claim C4 (amended): deflate and gzip `internal::compress` perform no
level validation — every `u32` level is handed to the codec library and the
call succeeds, returning the encoded length; only zstd can fail before the
stream copy, by propagating an `Encoder::new` error with the output writer
untouched (and that error is an I/O-shaped compression error, not a distinct
validation kind). -/
theorem claim_C4_amended
    (dl : DeflateLib) (gl : GzipLib) (zl : ZstdLib) (i o : Bytes)
    (ld lg : Option Nat) (lz : Option Int) (e : IoErr)
    (hz : zl.encoderNew (lz.getD 0) = Except.error e) :
    (Deflate.compress dl i o ld).2 = Except.ok (dl.encode (ld.getD 6) i).length ∧
    (Gzip.compress gl i o lg).2 = Except.ok (gl.encode (lg.getD 6) i).length ∧
    Zstd.compress zl i o lz = (o, Except.error e) := by
  refine ⟨rfl, rfl, ?_⟩
  simp [Zstd.compress, Zstd.DEFAULT_COMPRESSION_LEVEL, hz]

/-- Witness for the amended C4: deflate/gzip succeed at the out-of-range
level 100, and a zstd library that rejects level 100 at construction makes
`internal::compress` fail with the writer untouched. -/
theorem claim_C4_witness :
    (Deflate.compress idDeflateLib [1, 2] [7] (some 100)).2 = Except.ok 2 ∧
    (Gzip.compress idGzipLib [1, 2] [7] (some 100)).2 = Except.ok 2 ∧
    Zstd.compress failZstdLib [1, 2] [7] (some 100) = ([7], Except.error 3) :=
  claim_C4_amended idDeflateLib idGzipLib failZstdLib [1, 2] [7]
    (some 100) (some 100) (some 100) 3 rfl

/-- Claim C1: for each codec, decompressing the output of compression
returns exactly the original bytes (and the count of bytes written), for
every input and every level the codec accepts.  The codec libraries
themselves are external collaborators; their round-trip contracts are the
hypotheses `hd`, `hg`, `hz`, and the theorem shows the wrapper code preserves
them end to end (level defaulting, writer threading, count reporting). -/
theorem claim_C1_roundtrip
    (dl : DeflateLib) (gl : GzipLib) (zl : ZstdLib)
    (hd : ∀ l b, dl.decode (dl.encode l b) = (b, none))
    (hg : ∀ l b, gl.multiDecode (gl.encode l b) = (b, none))
    (hz : ∀ l b, zl.encoderNew l = Except.ok () →
      zl.decode (zl.encode l b) = (b, none))
    (B : Bytes) (ld lg : Option Nat) (lz : Option Int)
    (hzv : zl.encoderNew (lz.getD 0) = Except.ok ()) :
    Deflate.decompress dl (Deflate.compress dl B [] ld).1 [] = (B, Except.ok B.length) ∧
    Gzip.decompress gl (Gzip.compress gl B [] lg).1 [] = (B, Except.ok B.length) ∧
    Zstd.decompress zl (Zstd.compress zl B [] lz).1 [] = (B, Except.ok B.length) := by
  refine ⟨?_, ?_, ?_⟩
  · simp [Deflate.compress, Deflate.decompress, hd]
  · simp [Gzip.compress, Gzip.decompress, hg]
  · simp [Zstd.compress, Zstd.decompress, Zstd.DEFAULT_COMPRESSION_LEVEL, hzv,
      hz _ _ hzv]

/-- Witness for C1: with a transparent codec instantiation the round trip
holds at a concrete input for all three codecs. -/
theorem claim_C1_witness :
    Deflate.decompress idDeflateLib (Deflate.compress idDeflateLib [1, 2, 3] [] none).1 []
        = ([1, 2, 3], Except.ok 3) ∧
    Gzip.decompress idGzipLib (Gzip.compress idGzipLib [1, 2, 3] [] none).1 []
        = ([1, 2, 3], Except.ok 3) ∧
    Zstd.decompress idZstdLib (Zstd.compress idZstdLib [1, 2, 3] [] none).1 []
        = ([1, 2, 3], Except.ok 3) :=
  claim_C1_roundtrip idDeflateLib idGzipLib idZstdLib
    (fun _ _ => rfl) (fun _ _ => rfl) (fun _ _ _ => rfl)
    [1, 2, 3] none none none rfl

/-- Claim C2: a single gzip decompress over the concatenation of two
independently compressed frames yields the concatenation of the two
payloads — `MultiGzDecoder` processes every concatenated member (its
multi-member contract is the hypothesis `hcat`), and the wrapper reports the
full concatenated length. -/
theorem claim_C2_gzip_multiframe
    (gl : GzipLib)
    (hcat : ∀ l1 l2 a b,
      gl.multiDecode (gl.encode l1 a ++ gl.encode l2 b) = (a ++ b, none))
    (A B : Bytes) (l1 l2 : Option Nat) :
    Gzip.decompress gl ((Gzip.compress gl A [] l1).1 ++ (Gzip.compress gl B [] l2).1) []
      = (A ++ B, Except.ok (A ++ B).length) := by
  simp [Gzip.compress, Gzip.decompress, hcat]

/-- Witness for C2 at concrete frames, mirroring the repository's own
`test_gzip_multiple_streams` test. -/
theorem claim_C2_witness :
    Gzip.decompress idGzipLib
        ((Gzip.compress idGzipLib [1] [] none).1 ++ (Gzip.compress idGzipLib [2] [] none).1) []
      = ([1, 2], Except.ok 2) :=
  claim_C2_gzip_multiframe idGzipLib (fun _ _ _ _ => rfl) [1] [2] none none

/-- Claim C7: compressing the empty byte sequence succeeds for each codec,
producing the codec's (possibly nonempty) container for the empty payload,
and decompressing that container succeeds and yields the empty sequence. -/
theorem claim_C7_empty_input
    (dl : DeflateLib) (gl : GzipLib) (zl : ZstdLib)
    (hd : ∀ l, dl.decode (dl.encode l []) = ([], none))
    (hg : ∀ l, gl.multiDecode (gl.encode l []) = ([], none))
    (hz : ∀ l, zl.encoderNew l = Except.ok () →
      zl.decode (zl.encode l []) = ([], none))
    (ld lg : Option Nat) (lz : Option Int)
    (hzv : zl.encoderNew (lz.getD 0) = Except.ok ()) :
    ((Deflate.compress dl [] [] ld).2
        = Except.ok (dl.encode (ld.getD 6) []).length ∧
      Deflate.decompress dl (Deflate.compress dl [] [] ld).1 [] = ([], Except.ok 0)) ∧
    ((Gzip.compress gl [] [] lg).2
        = Except.ok (gl.encode (lg.getD 6) []).length ∧
      Gzip.decompress gl (Gzip.compress gl [] [] lg).1 [] = ([], Except.ok 0)) ∧
    ((Zstd.compress zl [] [] lz).2
        = Except.ok (zl.encode (lz.getD 0) []).length ∧
      Zstd.decompress zl (Zstd.compress zl [] [] lz).1 [] = ([], Except.ok 0)) := by
  refine ⟨⟨rfl, ?_⟩, ⟨rfl, ?_⟩, ⟨?_, ?_⟩⟩
  · simp [Deflate.compress, Deflate.decompress, hd]
  · simp [Gzip.compress, Gzip.decompress, hg]
  · simp [Zstd.compress, Zstd.DEFAULT_COMPRESSION_LEVEL, hzv]
  · simp [Zstd.compress, Zstd.decompress, Zstd.DEFAULT_COMPRESSION_LEVEL, hzv,
      hz _ hzv]

/-- Witness for C7: empty-input compression and round trip at a transparent
codec instantiation. -/
theorem claim_C7_witness :
    (((Deflate.compress idDeflateLib [] [] none).2
        = Except.ok (idDeflateLib.encode 6 []).length) ∧
      Deflate.decompress idDeflateLib (Deflate.compress idDeflateLib [] [] none).1 []
        = ([], Except.ok 0)) ∧
    (((Gzip.compress idGzipLib [] [] none).2
        = Except.ok (idGzipLib.encode 6 []).length) ∧
      Gzip.decompress idGzipLib (Gzip.compress idGzipLib [] [] none).1 []
        = ([], Except.ok 0)) ∧
    (((Zstd.compress idZstdLib [] [] none).2
        = Except.ok (idZstdLib.encode 0 []).length) ∧
      Zstd.decompress idZstdLib (Zstd.compress idZstdLib [] [] none).1 []
        = ([], Except.ok 0)) :=
  claim_C7_empty_input idDeflateLib idGzipLib idZstdLib
    (fun _ => rfl) (fun _ => rfl) (fun _ _ => rfl) none none none rfl

/-- A transparent incremental encoder over trivial core state: writes are
emitted to the sink immediately and consumed in full, flush and finalization
buffer nothing.  Used to instantiate the session-layer theorems. -/
def unitEnc : Enc Unit where
  write := fun _ b => ((), b, b.length)
  flushE := fun _ => ((), [])
  finE := fun _ => []

/-- Claim C3: on an Active session the first `finish` succeeds, returning the
sink's entire contents plus the finalized trailer, and transitions the
session irreversibly to Finished; every subsequent compress, flush or finish
call on the resulting session fails with the already-finished error and
leaves the session Finished — no second buffer is ever returned. -/
theorem claim_C3_finish_once {σ : Type} (e : Enc σ) (c : Compressor σ)
    (s : σ) (sink : Bytes) (h : c.inner = some (s, sink)) :
    streamFinish e c = (⟨none⟩, Except.ok (sink ++ e.finE s)) ∧
    (∀ b, streamCompress e (streamFinish e c).1 b
        = ((streamFinish e c).1, Except.error StreamErr.alreadyFinished)) ∧
    streamFlush e (streamFinish e c).1
        = ((streamFinish e c).1, Except.error StreamErr.alreadyFinished) ∧
    streamFinish e (streamFinish e c).1
        = ((streamFinish e c).1, Except.error StreamErr.alreadyFinished) := by
  have hfin : streamFinish e c = (⟨none⟩, Except.ok (sink ++ e.finE s)) := by
    simp [streamFinish, h]
  rw [hfin]
  exact ⟨rfl, fun _ => rfl, rfl, rfl⟩

/-- Witness for C3 at a concrete Active session: finish drains the sink, and
every later operation fails with the already-finished error. -/
theorem claim_C3_witness :
    streamFinish unitEnc ⟨some ((), [4])⟩
        = (⟨none⟩, Except.ok ([4] ++ unitEnc.finE ())) ∧
    streamCompress unitEnc (streamFinish unitEnc ⟨some ((), [4])⟩).1 [1]
        = ((streamFinish unitEnc ⟨some ((), [4])⟩).1,
           Except.error StreamErr.alreadyFinished) ∧
    streamFlush unitEnc (streamFinish unitEnc ⟨some ((), [4])⟩).1
        = ((streamFinish unitEnc ⟨some ((), [4])⟩).1,
           Except.error StreamErr.alreadyFinished) ∧
    streamFinish unitEnc (streamFinish unitEnc ⟨some ((), [4])⟩).1
        = ((streamFinish unitEnc ⟨some ((), [4])⟩).1,
           Except.error StreamErr.alreadyFinished) := by
  have h := claim_C3_finish_once unitEnc ⟨some ((), [4])⟩ () [4] rfl
  exact ⟨h.1, h.2.1 [1], h.2.2.1, h.2.2.2⟩

/-- Sink contents of a session after running a script: each feed appends the
write's emission, each flush drains the sink to empty. -/
def sinkAfter {σ : Type} (e : Enc σ) : σ → Bytes → List SOp → Bytes
  | _, sink, [] => sink
  | s, sink, SOp.feed b :: ops => sinkAfter e (e.write s b).1 (sink ++ (e.write s b).2.1) ops
  | s, _, SOp.flush :: ops => sinkAfter e (e.flushE s).1 [] ops

theorem runOps_feedStep {σ : Type} (e : Enc σ) (s : σ) (sink b : Bytes) (ops : List SOp) :
    runOps e ⟨some (s, sink)⟩ (SOp.feed b :: ops)
      = runOps e ⟨some ((e.write s b).1, sink ++ (e.write s b).2.1)⟩ ops := rfl

theorem runOps_flushStep {σ : Type} (e : Enc σ) (s : σ) (sink : Bytes) (ops : List SOp) :
    runOps e ⟨some (s, sink)⟩ (SOp.flush :: ops)
      = ((runOps e ⟨some ((e.flushE s).1, [])⟩ ops).1,
         (sink ++ (e.flushE s).2) ++ (runOps e ⟨some ((e.flushE s).1, [])⟩ ops).2) := rfl

theorem emits_feedStep {σ : Type} (e : Enc σ) (s : σ) (b : Bytes) (ops : List SOp) :
    emits e s (SOp.feed b :: ops)
      = ((emits e (e.write s b).1 ops).1,
         (e.write s b).2.1 ++ (emits e (e.write s b).1 ops).2) := rfl

theorem emits_flushStep {σ : Type} (e : Enc σ) (s : σ) (ops : List SOp) :
    emits e s (SOp.flush :: ops)
      = ((emits e (e.flushE s).1 ops).1,
         (e.flushE s).2 ++ (emits e (e.flushE s).1 ops).2) := rfl

/-- The session layer conserves the encoder's emission stream: after any
script the session is still Active with core state the encoder's, and the
bytes handed out so far plus the bytes still in the sink are exactly the
initial sink contents followed by everything the encoder emitted. -/
theorem runOps_emits {σ : Type} (e : Enc σ) (ops : List SOp) :
    ∀ (s : σ) (sink : Bytes),
      (runOps e ⟨some (s, sink)⟩ ops).1
          = ⟨some ((emits e s ops).1, sinkAfter e s sink ops)⟩ ∧
      (runOps e ⟨some (s, sink)⟩ ops).2 ++ sinkAfter e s sink ops
          = sink ++ (emits e s ops).2 := by
  induction ops with
  | nil => intro s sink; exact ⟨rfl, by simp [runOps, emits, sinkAfter]⟩
  | cons op ops ih =>
    intro s sink
    cases op with
    | feed b =>
      have h := ih (e.write s b).1 (sink ++ (e.write s b).2.1)
      refine ⟨?_, ?_⟩
      · rw [runOps_feedStep, emits_feedStep, h.1]; rfl
      · rw [runOps_feedStep, emits_feedStep, sinkAfter]
        rw [h.2, List.append_assoc]
    | flush =>
      have h := ih (e.flushE s).1 []
      refine ⟨?_, ?_⟩
      · rw [runOps_flushStep, emits_flushStep, h.1]; rfl
      · rw [runOps_flushStep, emits_flushStep, sinkAfter]
        simp only [List.append_assoc]
        rw [h.2]
        simp

/-- The total byte stream a session returns to its caller over a script plus
finish equals the encoder's own total production for that script. -/
theorem sessionTotal_eq_produce {σ : Type} (e : Enc σ) (s : σ) (ops : List SOp) :
    sessionTotal e s ops = produce e s ops := by
  have h := runOps_emits e ops s []
  simp only [sessionTotal]
  rw [h.1]
  simp only [streamFinish]
  rw [← List.append_assoc, h.2]
  simp [produce]

theorem produce_feedStep {σ : Type} (e : Enc σ) (s : σ) (b : Bytes) (ops : List SOp) :
    produce e s (SOp.feed b :: ops)
      = (e.write s b).2.1 ++ produce e (e.write s b).1 ops := by
  simp [produce, emits_feedStep, List.append_assoc]

theorem produce_flushStep {σ : Type} (e : Enc σ) (s : σ) (ops : List SOp) :
    produce e s (SOp.flush :: ops)
      = (e.flushE s).2 ++ produce e (e.flushE s).1 ops := by
  simp [produce, emits_flushStep, List.append_assoc]

/-- Stripping flushes is decode-invariant, given the encoder's flush
contract `HF` (a flush emission followed by the flushed encoder's production
decodes like the unflushed production, in any surrounding stream). -/
theorem dec_stripFlush {σ : Type} (e : Enc σ) (dec : Bytes → Bytes × Option IoErr)
    (HF : ∀ (p : Bytes) (s : σ) (ops : List SOp),
      dec (p ++ ((e.flushE s).2 ++ produce e (e.flushE s).1 ops))
        = dec (p ++ produce e s ops))
    (ops : List SOp) :
    ∀ (p : Bytes) (s : σ),
      dec (p ++ produce e s ops) = dec (p ++ produce e s (stripFlush ops)) := by
  induction ops with
  | nil => intro p s; rfl
  | cons op ops ih =>
    intro p s
    cases op with
    | feed b =>
      rw [stripFlush, produce_feedStep, produce_feedStep,
        ← List.append_assoc, ← List.append_assoc]
      exact ih (p ++ (e.write s b).2.1) (e.write s b).1
    | flush =>
      rw [stripFlush, produce_flushStep, HF p s ops]
      exact ih p s

/-- Claim C6: flushing an Active session returns the drained sink contents
plus the forced emission and leaves the session Active with an empty sink;
and — given the codec's flush contract `HF` (flush only reframes buffered
data, it never changes what the stream decodes to) — the concatenation of
all buffers returned by any interleaving of flushes and the final finish
decodes to the same bytes as finishing without any flush. -/
theorem claim_C6_flush_preserves_stream {σ : Type} (e : Enc σ)
    (dec : Bytes → Bytes × Option IoErr)
    (HF : ∀ (p : Bytes) (s : σ) (ops : List SOp),
      dec (p ++ ((e.flushE s).2 ++ produce e (e.flushE s).1 ops))
        = dec (p ++ produce e s ops))
    (s : σ) (sink : Bytes) (ops : List SOp) :
    (streamFlush e ⟨some (s, sink)⟩).1 = ⟨some ((e.flushE s).1, [])⟩ ∧
    (streamFlush e ⟨some (s, sink)⟩).2 = Except.ok (sink ++ (e.flushE s).2) ∧
    dec (sessionTotal e s ops) = dec (sessionTotal e s (stripFlush ops)) := by
  refine ⟨rfl, rfl, ?_⟩
  rw [sessionTotal_eq_produce, sessionTotal_eq_produce]
  have h := dec_stripFlush e dec HF ops [] s
  simpa using h

/-- Witness for C6: with the transparent encoder, a script with a flush in
the middle hands back a stream that decodes identically to the flush-free
script. -/
theorem claim_C6_witness :
    (streamFlush unitEnc ⟨some ((), [2])⟩).1 = ⟨some ((), [])⟩ ∧
    (streamFlush unitEnc ⟨some ((), [2])⟩).2 = Except.ok ([2] ++ (unitEnc.flushE ()).2) ∧
    (fun b => (b, (none : Option IoErr)))
        (sessionTotal unitEnc () [SOp.feed [1, 2], SOp.flush, SOp.feed [3]])
      = (fun b => (b, (none : Option IoErr)))
          (sessionTotal unitEnc () (stripFlush [SOp.feed [1, 2], SOp.flush, SOp.feed [3]])) :=
  claim_C6_flush_preserves_stream unitEnc (fun b => (b, none))
    (fun p s ops => by simp [unitEnc]) () [2]
    [SOp.feed [1, 2], SOp.flush, SOp.feed [3]]
